import Mathlib

/-!
Verification of the Finviz scanner script

A shallow embedding of the single-file Finviz screener scanner
(`FinvizScanner` with `build_url`, `daily_3up_scanner`, `fetch_results`
and `format_output`) together with proofs of its specified properties.

Modelling conventions:
* Strings are Lean `String`s; Python `str.strip()` / `str.lower()` are
  modelled over the character list (`strTrim`, `strToLower`).
* An HTML page is modelled as the list of its `<table>` elements in
  document order.  A table carries its `class` attribute (absent or a
  single class-token string) and its `<tr>` rows in document order; a
  `<td>` cell carries the list of its text fragments (nested markup
  flattened), so that `get_text(strip=True)` is the concatenation of the
  trimmed fragments.
* Console output of `format_output` is modelled as the list of printed
  items: plain text lines, plus one structured item for the
  grid-rendered table produced by `tabulate` (whose exact ASCII-art
  rendering is external to the script).
* The `requests.get`/`raise_for_status`/HTML-parsing part of
  `fetch_results` is effectful; its try-region outcome is modelled by
  `FetchOutcome`: either some exception (with its message and stack
  trace) or a successfully parsed page.
-/

namespace Finviz

/-! ## String helpers (models of Python string operations) -/

/-- Model of Python `str.strip()`: drop leading and trailing whitespace. -/
def strTrim (s : String) : String :=
  String.mk (((s.data.dropWhile Char.isWhitespace).reverse.dropWhile Char.isWhitespace).reverse)

/-- Model of Python `str.lower()` (ASCII case folding). -/
def strToLower (s : String) : String :=
  String.mk (s.data.map Char.toLower)

/-- Does the pattern occur at the head of the character list? -/
def matchesHead : List Char → List Char → Bool
  | [], _ => true
  | _ :: _, [] => false
  | p :: ps, c :: cs => p == c && matchesHead ps cs

/-- Does the pattern occur anywhere in the character list? -/
def hasSubChars (pat : List Char) : List Char → Bool
  | [] => matchesHead pat []
  | c :: cs => matchesHead pat (c :: cs) || hasSubChars pat cs

/-- Model of Python `pat in s` substring containment. -/
def strContainsSub (s pat : String) : Bool :=
  hasSubChars pat.data s.data

/-- Model of Python `c * n` string repetition (for the `"=" * 40` rules). -/
def strRepeat (c : Char) (n : Nat) : String :=
  String.mk (List.replicate n c)

/-- Model of Python `",".join(tokens)`, written by structural recursion;
`joinComma_eq_intercalate` relates it to `String.intercalate ","`. -/
def joinComma : List String → String
  | [] => ""
  | [s] => s
  | s :: rest => s ++ ("," ++ joinComma rest)

/-- Splitting accumulator: emit a token at every comma. -/
def splitCommaAux : List Char → List Char → List String
  | [], acc => [String.mk acc.reverse]
  | c :: cs, acc =>
    if c = ',' then String.mk acc.reverse :: splitCommaAux cs []
    else splitCommaAux cs (c :: acc)

/-- Split a string at every comma; inverse of `joinComma` on comma-free
nonempty token lists (`splitComma_joinComma`). -/
def splitComma (s : String) : List String :=
  splitCommaAux s.data []

/-! ## HTML document model -/

/-- A `<td>` cell: the text fragments of its flattened content. -/
structure Cell where
  texts : List String
deriving DecidableEq

/-- Model of BeautifulSoup `cell.get_text(strip=True)`: each fragment
stripped, concatenated with no separator. -/
def Cell.getTextStrip (c : Cell) : String :=
  String.join (c.texts.map strTrim)

/-- A `<table>` element: its `class` attribute (if any) and its `<tr>`
rows in document order, each row the list of its `<td>` cells. -/
structure HTMLTable where
  classAttr : Option String
  rows : List (List Cell)
deriving DecidableEq

/-- An HTML page, reduced to its tables in document order. -/
abbrev HTMLDoc := List HTMLTable

/-! ## Data model: stock records -/

/-- One extracted stock row (all fields plain text, source §3). -/
structure StockRecord where
  ticker : String
  company : String
  sector : String
  industry : String
  country : String
  market_cap : String
  pe : String
  price : String
  change : String
  volume : String
deriving DecidableEq

/-! ## URL builder (`FinvizScanner.build_url`, `daily_3up_scanner`) -/

def BASE_URL : String := "https://finviz.com/screener.ashx"

/-- The `"<code>_<value>"` token of one filter entry. -/
def filterToken (kv : String × String) : String :=
  kv.1 ++ "_" ++ kv.2

/-- The comma-joined filter segment (`filter_str` in the source). -/
def filterStr (filters : List (String × String)) : String :=
  String.intercalate "," (filters.map filterToken)

/-- Embedding of `FinvizScanner.build_url` (source lines 24–37).  A
Python `dict` preserves insertion order, so the filter set is an
association list. -/
def build_url (filters : List (String × String)) (output : String) (order : String) : String :=
  BASE_URL ++ "?v=" ++ output ++ "&f=" ++ filterStr filters ++ "&ft=4&o=" ++ order

/-- The preset filter set of `daily_3up_scanner` (source lines 50–57). -/
def daily_3up_filters : List (String × String) :=
  [("ind", "stocksonly"), ("sh_price", "o30"), ("sh_relvol", "o2"),
   ("ta_averagetruerange", "o2"), ("ta_change", "u3"), ("ta_sma200", "pa")]

/-- Embedding of `FinvizScanner.daily_3up_scanner` (source lines 39–58),
with the Python default arguments of `build_url` passed explicitly. -/
def daily_3up_scanner : String :=
  build_url daily_3up_filters "111" "-volume"

/-! ## Table extractor (`FinvizScanner.fetch_results`, parsing part) -/

/-- The primary selector of source line 77: find a table whose class
attribute is exactly "screener_table" (single-token class attributes). -/
def screenerTableExact (c : Option String) : Bool :=
  c == some "screener_table"

/-- The fallback selector predicate
`lambda x: x and "screener" in x.lower()` (source line 80): the class
attribute must be present, non-empty, and contain `"screener"`
case-insensitively. -/
def screenerFallback : Option String → Bool
  | none => false
  | some s => (!(s == "")) && strContainsSub (strToLower s) "screener"

/-- Model of the BeautifulSoup find-table call: first table whose class
attribute satisfies the predicate. -/
def findTable (doc : HTMLDoc) (p : Option String → Bool) : Option HTMLTable :=
  doc.find? (fun t => p t.classAttr)

/-- The two-stage table location of source lines 77–80: exact class
match first, then the fuzzy fallback. -/
def locateTable (doc : HTMLDoc) : Option HTMLTable :=
  match findTable doc screenerTableExact with
  | some t => some t
  | none => findTable doc screenerFallback

/-- Text of the cell at position `i` (rows reaching the extraction code
always have at least 11 cells, so the default is never consulted). -/
def cellTextAt (cells : List Cell) (i : Nat) : String :=
  (cells.getD i ⟨[]⟩).getTextStrip

/-- The `stock` dictionary built at source lines 97–108: cells 1–10
mapped positionally onto the ten record fields. -/
def rowRecord (cells : List Cell) : StockRecord :=
  { ticker := cellTextAt cells 1
    company := cellTextAt cells 2
    sector := cellTextAt cells 3
    industry := cellTextAt cells 4
    country := cellTextAt cells 5
    market_cap := cellTextAt cells 6
    pe := cellTextAt cells 7
    price := cellTextAt cells 8
    change := cellTextAt cells 9
    volume := cellTextAt cells 10 }

/-- The per-row branch of the loop at source lines 93–109: a record is
appended only when the row has at least 11 cells. -/
def extractRow (cells : List Cell) : Option StockRecord :=
  if 11 ≤ cells.length then some (rowRecord cells) else none

/-- The extraction loop over data rows (append inside a for loop). -/
def extractRows (rows : List (List Cell)) : List StockRecord :=
  rows.filterMap extractRow

/-- The parsing part of `FinvizScanner.fetch_results` (source lines
74–111): locate the table, return `[]` when none is found, otherwise
skip the first (header) row and extract the rest. -/
def fetch_results_parse (doc : HTMLDoc) : List StockRecord :=
  match locateTable doc with
  | none => []
  | some t => extractRows (t.rows.drop 1)

/-! ## Fetcher error boundary (`fetch_results`, source lines 70–117) -/

/-- Outcome of the try-region of `fetch_results`: either some exception
(network error, non-2xx status via `raise_for_status`, or any parse
exception), carrying its message and formatted stack trace, or a
successfully fetched and parsed page. -/
inductive FetchOutcome where
  | exn (message : String) (stackTrace : String)
  | ok (doc : HTMLDoc)

/-- What `fetch_results` hands back: its return value together with the
diagnostic lines it printed. -/
structure FetchResult where
  records : List StockRecord
  logged : List String
deriving DecidableEq

/-- Embedding of `FinvizScanner.fetch_results` (source lines 60–117):
the `except` handler prints `"Error fetching results: ..."` and the
stack trace, then returns `[]`; the success path returns the parsed
records and logs nothing. -/
def fetch_results : FetchOutcome → FetchResult
  | .exn msg tb => { records := [], logged := ["Error fetching results: " ++ msg, tb] }
  | .ok doc => { records := fetch_results_parse doc, logged := [] }

/-! ## Report formatter (`FinvizScanner.format_output`, source lines 119–185) -/

/-- One printed item of the report: a plain text line, or the
grid-rendered table (headers and data rows) produced by `tabulate`. -/
inductive OutLine where
  | text (s : String)
  | table (headers : List String) (rows : List (List String))
deriving DecidableEq

/-- The header banner (source lines 128–132): title line with the
current date, a 40-character rule, a blank line.  `datetime.now()` is an
implicit input of the Python code; the embedding passes the formatted
date `today` explicitly. -/
def headerBlock (scanner_name today : String) : List OutLine :=
  [OutLine.text ("Finviz Screener Results - " ++ scanner_name ++ " - " ++ today),
   OutLine.text (strRepeat '=' 40),
   OutLine.text ""]

/-- The fixed criteria block (source lines 134–141), hardcoded text not
derived from the filter set. -/
def criteriaBlock : List OutLine :=
  [OutLine.text "Screening Criteria:",
   OutLine.text "- Daily 3% UP",
   OutLine.text "- Price > $30",
   OutLine.text "- Above 200 SMA",
   OutLine.text "- ATR 2",
   OutLine.text "- RVOL 2",
   OutLine.text ""]

/-- The URL block (source lines 143–147): label, the URL, a 60-character
rule, a blank line. -/
def urlBlock (url : String) : List OutLine :=
  [OutLine.text "URL:",
   OutLine.text url,
   OutLine.text (strRepeat '-' 60),
   OutLine.text ""]

/-- One `table_data` row (source lines 158–170): the 1-based index
followed by the ten record fields. -/
def tableRow (idx : Nat) (s : StockRecord) : List String :=
  [toString idx, s.ticker, s.company, s.sector, s.industry, s.country,
   s.market_cap, s.pe, s.price, s.change, s.volume]

/-- The `for idx, stock in enumerate(results, 1)` loop building
`table_data` (source lines 157–171). -/
def numberRows (idx : Nat) : List StockRecord → List (List String)
  | [] => []
  | s :: rest => tableRow idx s :: numberRows (idx + 1) rest

/-- The column headers passed to `tabulate` (source lines 174–177). -/
def tableHeaders : List String :=
  ["No", "Ticker", "Company", "Sector", "Industry",
   "Country", "Market Cap", "P/E", "Price", "Change", "Volume"]

/-- Embedding of `FinvizScanner.format_output` (source lines 119–185) as
the sequence of printed items.  When `results` is empty the function
prints `"No results found."` and returns early; otherwise it prints the
grid table, a blank line, and the ticker list. -/
def format_output (results : List StockRecord) (url scanner_name today : String) :
    List OutLine :=
  headerBlock scanner_name today ++ criteriaBlock ++ urlBlock url ++
    (if results.isEmpty then
      [OutLine.text "No results found."]
    else
      [OutLine.table tableHeaders (numberRows 1 results),
       OutLine.text "",
       OutLine.text "Ticker Symbols:",
       OutLine.text (String.intercalate ", " (results.map StockRecord.ticker))])

/-! ## Spec-side formatter description (§4.4 of the spec)

A second definition of the report, written from the wording of the
specification rather than from the source, used to state the formatter
refinement: "Produces, in fixed order: a title line with the current
date, a fixed static block of the screening-criteria description, the
source URL, a grid-rendered table with a 1-based row index column
prepended and the ten fields as columns, and a trailing comma-separated
list of tickers.  When ResultSet is empty, emits a single No-results-found
line instead of the table and ticker list." -/

/-- The ten fields of a record in the order of spec §3. -/
def specRecordFields (s : StockRecord) : List String :=
  [s.ticker, s.company, s.sector, s.industry, s.country,
   s.market_cap, s.pe, s.price, s.change, s.volume]

/-- Spec §4.4: the grid rows, a 1-based row index column prepended to
the ten fields. -/
def specGridRows (results : List StockRecord) : List (List String) :=
  results.mapIdx (fun i s => toString (i + 1) :: specRecordFields s)

/-- The report as described by spec §4.4 (date passed explicitly). -/
def specReport (results : List StockRecord) (url scanner_name today : String) :
    List OutLine :=
  headerBlock scanner_name today ++ criteriaBlock ++ urlBlock url ++
    (if results.isEmpty then
      [OutLine.text "No results found."]
    else
      [OutLine.table tableHeaders (specGridRows results),
       OutLine.text "",
       OutLine.text "Ticker Symbols:",
       OutLine.text (String.intercalate ", " (results.map StockRecord.ticker))])

/-! ## Basic string lemmas -/

/-- Two strings with equal character lists are equal. -/
theorem strExt {a b : String} (h : a.data = b.data) : a = b := by
  cases a; cases b; cases h; rfl

/-- Appending strings appends their character lists. -/
theorem strData_append (a b : String) : (a ++ b).data = a.data ++ b.data := by
  cases a; cases b; rfl

/-- String append is associative. -/
theorem strAppend_assoc (a b c : String) : a ++ b ++ c = a ++ (b ++ c) := by
  apply strExt
  simp [strData_append, List.append_assoc]

/-- `joinComma` on a list with at least two tokens. -/
theorem joinComma_cons (x : String) (rest : List String) (h : rest ≠ []) :
    joinComma (x :: rest) = x ++ ("," ++ joinComma rest) := by
  cases rest with
  | nil => exact absurd rfl h
  | cons y ys => rfl

/-- The tail-recursive worker of `String.intercalate` computes `joinComma`
of the accumulator consed on the remaining tokens. -/
theorem intercalate_go_comma (as : List String) :
    ∀ acc : String, String.intercalate.go acc "," as = joinComma (acc :: as) := by
  induction as with
  | nil => intro acc; rfl
  | cons a as ih =>
    intro acc
    show String.intercalate.go (acc ++ "," ++ a) "," as = joinComma (acc :: a :: as)
    rw [ih (acc ++ "," ++ a)]
    cases as with
    | nil => exact strAppend_assoc acc "," a
    | cons b bs =>
      rw [joinComma_cons (acc ++ "," ++ a) (b :: bs) (by simp),
          joinComma_cons acc (a :: b :: bs) (by simp),
          joinComma_cons a (b :: bs) (by simp),
          strAppend_assoc (acc ++ ",") a ("," ++ joinComma (b :: bs)),
          strAppend_assoc acc "," (a ++ ("," ++ joinComma (b :: bs)))]

/-- `String.intercalate ","` agrees with the recursive `joinComma`. -/
theorem intercalate_comma_eq_joinComma (xs : List String) :
    String.intercalate "," xs = joinComma xs := by
  cases xs with
  | nil => rfl
  | cons a as => exact intercalate_go_comma as a

/-- Scanning past a comma-free prefix just moves it into the accumulator. -/
theorem splitCommaAux_append_no_comma (l : List Char) (h : ',' ∉ l) :
    ∀ (rest acc : List Char),
      splitCommaAux (l ++ rest) acc = splitCommaAux rest (l.reverse ++ acc) := by
  induction l with
  | nil => intro rest acc; simp
  | cons c cs ih =>
    intro rest acc
    have hc : ¬(c = ',') := fun e => h (e ▸ List.mem_cons_self c cs)
    have hcs : ',' ∉ cs := fun m => h (List.mem_cons_of_mem c m)
    show splitCommaAux (c :: (cs ++ rest)) acc = _
    rw [splitCommaAux, if_neg hc, ih hcs rest (c :: acc)]
    simp [List.append_assoc]

/-- `splitComma` is a left inverse of `joinComma` on nonempty lists of
comma-free tokens. -/
theorem splitComma_joinComma (xs : List String) (hfree : ∀ x ∈ xs, ',' ∉ x.data)
    (hne : xs ≠ []) : splitComma (joinComma xs) = xs := by
  induction xs with
  | nil => exact absurd rfl hne
  | cons x rest ih =>
    have hx : ',' ∉ x.data := hfree x (List.mem_cons_self x rest)
    cases rest with
    | nil =>
      show splitCommaAux x.data [] = [x]
      rw [show x.data = x.data ++ [] from (List.append_nil _).symm,
          splitCommaAux_append_no_comma x.data hx [] []]
      simp only [splitCommaAux, List.append_nil, List.reverse_reverse]
    | cons y ys =>
      have hdata : (joinComma (x :: y :: ys)).data =
          x.data ++ (',' :: (joinComma (y :: ys)).data) := by
        rw [joinComma_cons x (y :: ys) (by simp), strData_append, strData_append]
        rfl
      show splitCommaAux (joinComma (x :: y :: ys)).data [] = x :: y :: ys
      rw [hdata, splitCommaAux_append_no_comma x.data hx _ []]
      rw [splitCommaAux, if_pos rfl]
      have hrest : splitCommaAux (joinComma (y :: ys)).data [] = y :: ys :=
        ih (fun z hz => hfree z (List.mem_cons_of_mem x hz)) (by simp)
      rw [hrest]
      simp

/-! ## Extraction lemmas -/

/-- On rows that all have at least 11 cells, extraction is exactly the
positional field mapping, row for row. -/
theorem extractRows_eq_map (rows : List (List Cell))
    (h : ∀ r ∈ rows, 11 ≤ r.length) :
    extractRows rows = rows.map rowRecord := by
  induction rows with
  | nil => rfl
  | cons r rest ih =>
    have hr : 11 ≤ r.length := h r (List.mem_cons_self r rest)
    show List.filterMap extractRow (r :: rest) = _
    rw [List.filterMap_cons]
    rw [show extractRow r = some (rowRecord r) from if_pos hr]
    rw [show List.filterMap extractRow rest = extractRows rest from rfl,
        ih (fun r' h' => h r' (List.mem_cons_of_mem r h'))]
    rfl

/-- A successful `find?` decomposes the list into a prefix of failures,
the found element, and a suffix. -/
theorem find?_decomposition {α : Type} (p : α → Bool) (l : List α) (t : α)
    (h : l.find? p = some t) :
    ∃ l1 l2, l = l1 ++ t :: l2 ∧ p t = true ∧ ∀ u ∈ l1, p u = false := by
  induction l with
  | nil => simp [List.find?] at h
  | cons a as ih =>
    by_cases ha : p a = true
    · rw [List.find?_cons_of_pos as ha] at h
      obtain rfl : a = t := by injection h
      exact ⟨[], as, rfl, ha, by simp⟩
    · rw [List.find?_cons_of_neg as (by simpa using ha)] at h
      obtain ⟨l1, l2, hl, hpt, hall⟩ := ih h
      refine ⟨a :: l1, l2, by rw [hl]; rfl, hpt, ?_⟩
      intro u hu
      rcases List.mem_cons.mp hu with rfl | hu'
      · simpa using ha
      · exact hall u hu'

/-- `getD` ignores a right extension inside the bounds of the left part. -/
theorem getD_append_left {α : Type} (l l' : List α) (d : α) (n : Nat)
    (h : n < l.length) : (l ++ l').getD n d = l.getD n d := by
  simp [List.getD_eq_getElem?_getD, List.getElem?_append_left h]

/-- Cell text at positions 1–10 depends only on the middle ten cells,
not on cell 0 nor on any cells past position 10. -/
theorem cellTextAt_cons_append (c c' : Cell) (mid e e' : List Cell) (i : Nat)
    (h : i < mid.length) :
    cellTextAt (c :: (mid ++ e)) (i + 1) = cellTextAt (c' :: (mid ++ e')) (i + 1) := by
  unfold cellTextAt
  rw [List.getD_cons_succ, List.getD_cons_succ,
      getD_append_left _ _ _ _ h, getD_append_left _ _ _ _ h]

/-! ## Formatter lemmas -/

/-- The enumerate-from-`n` loop building the grid rows agrees with an
index-mapped description. -/
theorem numberRows_eq_mapIdx (l : List StockRecord) :
    ∀ n : Nat, numberRows n l =
      l.mapIdx (fun i s => toString (i + n) :: specRecordFields s) := by
  induction l with
  | nil => intro n; rfl
  | cons s rest ih =>
    intro n
    show tableRow n s :: numberRows (n + 1) rest = _
    rw [List.mapIdx_cons, ih (n + 1)]
    have harg : (fun (i : Nat) (a : StockRecord) => toString (i + (n + 1)) :: specRecordFields a)
        = (fun (i : Nat) (a : StockRecord) => toString (i + 1 + n) :: specRecordFields a) := by
      funext i a
      have : i + (n + 1) = i + 1 + n := by omega
      rw [this]
    rw [harg]
    show tableRow n s :: _ = (toString (0 + n) :: specRecordFields s) :: _
    rw [show (0 : Nat) + n = n from by omega]
    rfl

/-! ## Concrete fixtures -/

/-- A well-formed 11-cell data row used by witnesses. -/
def wRow : List Cell :=
  [⟨["x"]⟩, ⟨["T"]⟩, ⟨["C"]⟩, ⟨["S"]⟩, ⟨["I"]⟩, ⟨["U"]⟩,
   ⟨["M"]⟩, ⟨["P"]⟩, ⟨["R"]⟩, ⟨["G"]⟩, ⟨["V"]⟩]

/-- A table with exact screener class, a header row, and one data row. -/
def wTable : HTMLTable :=
  { classAttr := some "screener_table", rows := [[], wRow] }

def wDoc : HTMLDoc := [wTable]

/-- A short (1-cell) row, as a spacer or ad row would produce. -/
def w2Short : List Cell := [⟨["ad"]⟩]

/-- A table whose data rows are a good row, a short row, a good row. -/
def w2Table : HTMLTable :=
  { classAttr := some "screener_table", rows := [[], wRow, w2Short, wRow] }

def w2Doc : HTMLDoc := [w2Table]

/-- A table matched only by the fuzzy fallback selector. -/
def fbTable : HTMLTable :=
  { classAttr := some "Screener-v2 wide", rows := [] }

/-- A page without any exact-class table: one unrelated table, then the
fallback one. -/
def fbDoc : HTMLDoc := [{ classAttr := some "other", rows := [] }, fbTable]

/-- The middle ten cells of a row, feeding record fields 1–10. -/
def wMid : List Cell :=
  [⟨["T"]⟩, ⟨["C"]⟩, ⟨["S"]⟩, ⟨["I"]⟩, ⟨["U"]⟩,
   ⟨["M"]⟩, ⟨["P"]⟩, ⟨["R"]⟩, ⟨["G"]⟩, ⟨["V"]⟩]

def wCell : Cell := ⟨["z"]⟩

/-- Sample fixture page: one exact-class table, a header row and three
data rows with tickers AAPL, TSLA, NVDA (whitespace and a split text
fragment included to exercise trimming and flattening). -/
def sampleRowAAPL : List Cell :=
  [⟨["1"]⟩, ⟨[" AAPL "]⟩, ⟨["Apple ", "Inc."]⟩, ⟨["Technology"]⟩,
   ⟨["Consumer Electronics"]⟩, ⟨["USA"]⟩, ⟨["3000.00B"]⟩, ⟨["30.12"]⟩,
   ⟨["190.00"]⟩, ⟨["3.50%"]⟩, ⟨["50,000,000"]⟩]

def sampleRowTSLA : List Cell :=
  [⟨["2"]⟩, ⟨["TSLA"]⟩, ⟨["Tesla"]⟩, ⟨["Consumer Cyclical"]⟩,
   ⟨["Auto Manufacturers"]⟩, ⟨["USA"]⟩, ⟨["800.00B"]⟩, ⟨["70.00"]⟩,
   ⟨["250.00"]⟩, ⟨["4.20%"]⟩, ⟨["90,000,000"]⟩]

def sampleRowNVDA : List Cell :=
  [⟨["3"]⟩, ⟨["NVDA"]⟩, ⟨["NVIDIA"]⟩, ⟨["Technology"]⟩,
   ⟨["Semiconductors"]⟩, ⟨["USA"]⟩, ⟨["3500.00B"]⟩, ⟨["60.00"]⟩,
   ⟨["140.00"]⟩, ⟨["5.00%"]⟩, ⟨["300,000,000"]⟩]

def sampleDoc : HTMLDoc :=
  [{ classAttr := some "screener_table",
     rows := [[⟨["No."]⟩, ⟨["Ticker"]⟩], sampleRowAAPL, sampleRowTSLA, sampleRowNVDA] }]

def sampleUrl : String :=
  "https://finviz.com/screener.ashx?v=111&f=ta_change_u3&ft=4&o=-volume"

/-! ## Claim theorems -/

/-- C1: for a document whose exact-class table has one header row
followed by data rows that all have at least 11 cells, extraction
returns exactly one record per data row, in document order, each record
being the positional mapping of the trimmed text of cells 1–10 onto the
ten fields; the header row is skipped and never contributes. -/
theorem extract_well_formed_table (doc : HTMLDoc) (t : HTMLTable)
    (header : List Cell) (dataRows : List (List Cell))
    (hfind : findTable doc screenerTableExact = some t)
    (hrows : t.rows = header :: dataRows)
    (hcells : ∀ r ∈ dataRows, 11 ≤ r.length) :
    fetch_results_parse doc = dataRows.map rowRecord ∧
    (fetch_results_parse doc).length = dataRows.length := by
  have hloc : locateTable doc = some t := by
    unfold locateTable; rw [hfind]
  have hparse : fetch_results_parse doc = extractRows (t.rows.drop 1) := by
    unfold fetch_results_parse; rw [hloc]
  rw [hparse, hrows]
  rw [show (header :: dataRows).drop 1 = dataRows from rfl]
  rw [extractRows_eq_map dataRows hcells]
  exact ⟨rfl, by simp⟩

/-- C1 witness: a one-data-row document, evaluated concretely. -/
theorem extract_well_formed_table_witness :
    fetch_results_parse wDoc = [wRow].map rowRecord ∧
    (fetch_results_parse wDoc).length = [wRow].length :=
  extract_well_formed_table wDoc wTable [] [wRow] (by decide) rfl (by decide)

/-- C2: a data row with fewer than 11 cells produces no record at all,
and the records of the remaining rows are unchanged in order and
content; with all other rows well formed, K data rows yield K−1
records. -/
theorem short_row_dropped (doc : HTMLDoc) (t : HTMLTable)
    (header shortRow : List Cell) (pre post : List (List Cell))
    (hfind : findTable doc screenerTableExact = some t)
    (hrows : t.rows = header :: (pre ++ shortRow :: post))
    (hshort : shortRow.length < 11)
    (hrest : ∀ r ∈ pre ++ post, 11 ≤ r.length) :
    fetch_results_parse doc = (pre ++ post).map rowRecord ∧
    (fetch_results_parse doc).length + 1 = (pre ++ shortRow :: post).length := by
  have hloc : locateTable doc = some t := by
    unfold locateTable; rw [hfind]
  have hparse : fetch_results_parse doc = extractRows (t.rows.drop 1) := by
    unfold fetch_results_parse; rw [hloc]
  have hpre : ∀ r ∈ pre, 11 ≤ r.length := fun r hr =>
    hrest r (List.mem_append_left post hr)
  have hpost : ∀ r ∈ post, 11 ≤ r.length := fun r hr =>
    hrest r (List.mem_append_right pre hr)
  have hdrop : extractRow shortRow = none := if_neg (by omega)
  have hsplit : extractRows (pre ++ shortRow :: post) =
      (pre ++ post).map rowRecord := by
    unfold extractRows
    rw [List.filterMap_append, List.filterMap_cons, hdrop]
    rw [show List.filterMap extractRow pre = extractRows pre from rfl,
        show List.filterMap extractRow post = extractRows post from rfl,
        extractRows_eq_map pre hpre, extractRows_eq_map post hpost,
        List.map_append]
  rw [hparse, hrows]
  rw [show (header :: (pre ++ shortRow :: post)).drop 1 = pre ++ shortRow :: post from rfl]
  rw [hsplit]
  refine ⟨rfl, ?_⟩
  simp [Nat.add_assoc]

/-- C2 witness: good row, short row, good row — the short row vanishes,
the others are untouched. -/
theorem short_row_dropped_witness :
    fetch_results_parse w2Doc = ([wRow] ++ [wRow]).map rowRecord ∧
    (fetch_results_parse w2Doc).length + 1 = ([wRow] ++ w2Short :: [wRow]).length :=
  short_row_dropped w2Doc w2Table [] w2Short [wRow] [wRow]
    (by decide) rfl (by decide) (by decide)

/-- C3: table location is two-staged — an exact-class hit wins; when the
exact stage finds nothing, the result is the fallback search for the
first table whose class attribute contains "screener" case-insensitively
(and non-emptily); when both stages fail, extraction returns the empty
list rather than an error. -/
theorem table_location_stages (doc : HTMLDoc) :
    (∀ t, findTable doc screenerTableExact = some t → locateTable doc = some t) ∧
    (findTable doc screenerTableExact = none →
      locateTable doc = findTable doc screenerFallback) ∧
    (locateTable doc = none → fetch_results_parse doc = []) ∧
    (∀ t, findTable doc screenerFallback = some t →
      ∃ pre suf, doc = pre ++ t :: suf ∧
        (∀ u ∈ pre, screenerFallback u.classAttr = false) ∧
        ∃ s, t.classAttr = some s ∧ s ≠ "" ∧
          strContainsSub (strToLower s) "screener" = true) := by
  refine ⟨?_, ?_, ?_, ?_⟩
  · intro t h; unfold locateTable; rw [h]
  · intro h; unfold locateTable; rw [h]
  · intro h; unfold fetch_results_parse; rw [h]
  · intro t h
    unfold findTable at h
    obtain ⟨pre, suf, hdoc, hpt, hall⟩ :=
      find?_decomposition (fun tb => screenerFallback tb.classAttr) doc t h
    refine ⟨pre, suf, hdoc, fun u hu => hall u hu, ?_⟩
    cases hc : t.classAttr with
    | none => rw [hc] at hpt; simp [screenerFallback] at hpt
    | some s =>
      rw [hc] at hpt
      simp only [screenerFallback, Bool.and_eq_true, Bool.not_eq_true'] at hpt
      refine ⟨s, rfl, ?_, hpt.2⟩
      simpa using hpt.1

/-- C3 witness: a page with no exact-class table; the fallback stage is
used and its hit is the first fuzzy-class table. -/
theorem table_location_stages_witness :
    locateTable fbDoc = findTable fbDoc screenerFallback ∧
    (∃ pre suf, fbDoc = pre ++ fbTable :: suf ∧
      (∀ u ∈ pre, screenerFallback u.classAttr = false) ∧
      ∃ s, fbTable.classAttr = some s ∧ s ≠ "" ∧
        strContainsSub (strToLower s) "screener" = true) :=
  ⟨(table_location_stages fbDoc).2.1 (by decide),
   (table_location_stages fbDoc).2.2.2 fbTable (by decide)⟩

/-- C4: the fetch operation is total — on any exception in its protected
region it returns the empty record list and logs the error line and the
stack trace; on success it logs nothing. -/
theorem fetch_results_error_boundary (msg tb : String) (doc : HTMLDoc) :
    fetch_results (FetchOutcome.exn msg tb) =
      { records := [], logged := ["Error fetching results: " ++ msg, tb] } ∧
    fetch_results (FetchOutcome.ok doc) =
      { records := fetch_results_parse doc, logged := [] } :=
  ⟨rfl, rfl⟩

/-- C5: `build_url` follows the fixed URL template, and the filter
segment is the comma-join of one code_value token per filter entry, in
insertion order — recoverable by splitting at commas when the tokens are
comma-free, and empty for the empty filter set. -/
theorem build_url_tokens (filters : List (String × String)) (output order : String)
    (hfree : ∀ kv ∈ filters, ',' ∉ (filterToken kv).data) :
    build_url filters output order =
      BASE_URL ++ "?v=" ++ output ++ "&f=" ++ filterStr filters ++ "&ft=4&o=" ++ order ∧
    (filters = [] → filterStr filters = "") ∧
    (filters ≠ [] →
      splitComma (filterStr filters) = filters.map filterToken ∧
      (splitComma (filterStr filters)).length = filters.length) := by
  refine ⟨rfl, ?_, ?_⟩
  · rintro rfl; rfl
  · intro hne
    have hmap : filters.map filterToken ≠ [] := by
      simpa using hne
    have hfree' : ∀ x ∈ filters.map filterToken, ',' ∉ x.data := by
      intro x hx
      obtain ⟨kv, hkv, rfl⟩ := List.mem_map.mp hx
      exact hfree kv hkv
    have hjc : filterStr filters = joinComma (filters.map filterToken) := by
      unfold filterStr; rw [intercalate_comma_eq_joinComma]
    rw [hjc, splitComma_joinComma _ hfree' hmap]
    exact ⟨rfl, by simp⟩

/-- C5 witness: the six-entry preset filter set round-trips through the
filter segment. -/
theorem build_url_tokens_witness :
    (∀ kv ∈ daily_3up_filters, ',' ∉ (filterToken kv).data) ∧
    (splitComma (filterStr daily_3up_filters) = daily_3up_filters.map filterToken ∧
     (splitComma (filterStr daily_3up_filters)).length = daily_3up_filters.length) :=
  ⟨by decide,
   (build_url_tokens daily_3up_filters "111" "-volume" (by decide)).2.2 (by decide)⟩

/-- C6: on an empty result set the formatter still emits the header
banner, the criteria block and the URL block, in that order, then a
single No-results-found line; no grid table item is emitted. -/
theorem format_empty_results (url name today : String) :
    format_output [] url name today =
      headerBlock name today ++ criteriaBlock ++ urlBlock url ++
        [OutLine.text "No results found."] ∧
    ∀ hs rs, OutLine.table hs rs ∉ format_output [] url name today := by
  constructor
  · rfl
  · intro hs rs hmem
    simp [format_output, headerBlock, criteriaBlock, urlBlock] at hmem

/-- C7 counterexample: the emitted report is not a function of
`(results, url, scannerName)` alone — the same three arguments produce
different output on different days, because the title line embeds the
current date. -/
theorem formatter_depends_on_date :
    format_output [] "https://example.invalid" "daily-3up" "2024-01-01" ≠
    format_output [] "https://example.invalid" "daily-3up" "2024-01-02" := by
  decide

/-- C7 amended: with the current date made an explicit fourth input, the
formatter is pure — its entire effect is the emitted report text, which
coincides line for line with the report described by spec §4.4. -/
theorem format_output_refines_spec (results : List StockRecord)
    (url name today : String) :
    format_output results url name today = specReport results url name today := by
  unfold format_output specReport
  cases hres : results.isEmpty
  · simp only [hres, Bool.false_eq_true, if_false]
    rw [show specGridRows results =
        results.mapIdx (fun i s => toString (i + 1) :: specRecordFields s) from rfl,
      ← numberRows_eq_mapIdx results 1]
  · rfl

/-- C8: the three-row AAPL/TSLA/NVDA fixture, run through the extractor
and the formatter with the network bypassed, yields the grid table with
exactly those three rows in order, each prefixed by its 1-based index,
and a ticker line reading exactly "AAPL, TSLA, NVDA". -/
theorem end_to_end_fixture :
    (fetch_results_parse sampleDoc).map StockRecord.ticker = ["AAPL", "TSLA", "NVDA"] ∧
    format_output (fetch_results_parse sampleDoc) sampleUrl "daily-3up" "2025-10-12" =
      headerBlock "daily-3up" "2025-10-12" ++ criteriaBlock ++ urlBlock sampleUrl ++
        [OutLine.table tableHeaders
          [["1", "AAPL", "AppleInc.", "Technology", "Consumer Electronics",
            "USA", "3000.00B", "30.12", "190.00", "3.50%", "50,000,000"],
           ["2", "TSLA", "Tesla", "Consumer Cyclical", "Auto Manufacturers",
            "USA", "800.00B", "70.00", "250.00", "4.20%", "90,000,000"],
           ["3", "NVDA", "NVIDIA", "Technology", "Semiconductors",
            "USA", "3500.00B", "60.00", "140.00", "5.00%", "300,000,000"]],
         OutLine.text "",
         OutLine.text "Ticker Symbols:",
         OutLine.text "AAPL, TSLA, NVDA"] := by
  decide

/-- C9: a data row with strictly more than 11 cells still yields exactly
one record, drawn from cells 1–10; neither cell 0 nor any cell from
position 11 on can change the extracted record. -/
theorem surplus_cells_ignored (c0 c0' : Cell) (mid extra extra' : List Cell)
    (hmid : mid.length = 10) :
    extractRow (c0 :: (mid ++ extra)) = some (rowRecord (c0 :: (mid ++ extra))) ∧
    extractRow (c0 :: (mid ++ extra)) = extractRow (c0' :: (mid ++ extra')) := by
  have hlen : 11 ≤ (c0 :: (mid ++ extra)).length := by
    simp [hmid]
  have hlen' : 11 ≤ (c0' :: (mid ++ extra')).length := by
    simp [hmid]
  have hrec : rowRecord (c0 :: (mid ++ extra)) = rowRecord (c0' :: (mid ++ extra')) := by
    unfold rowRecord
    refine StockRecord.mk.injEq .. ▸ ?_
    exact ⟨cellTextAt_cons_append _ _ _ _ _ 0 (by omega),
           cellTextAt_cons_append _ _ _ _ _ 1 (by omega),
           cellTextAt_cons_append _ _ _ _ _ 2 (by omega),
           cellTextAt_cons_append _ _ _ _ _ 3 (by omega),
           cellTextAt_cons_append _ _ _ _ _ 4 (by omega),
           cellTextAt_cons_append _ _ _ _ _ 5 (by omega),
           cellTextAt_cons_append _ _ _ _ _ 6 (by omega),
           cellTextAt_cons_append _ _ _ _ _ 7 (by omega),
           cellTextAt_cons_append _ _ _ _ _ 8 (by omega),
           cellTextAt_cons_append _ _ _ _ _ 9 (by omega)⟩
  constructor
  · exact if_pos hlen
  · rw [show extractRow (c0 :: (mid ++ extra)) =
        some (rowRecord (c0 :: (mid ++ extra))) from if_pos hlen,
      show extractRow (c0' :: (mid ++ extra')) =
        some (rowRecord (c0' :: (mid ++ extra'))) from if_pos hlen',
      hrec]

/-- C9 witness: a 12-cell row and a variant with a different cell 0 and
no 12th cell extract to the same record. -/
theorem surplus_cells_ignored_witness :
    extractRow (wCell :: (wMid ++ [wCell])) =
      some (rowRecord (wCell :: (wMid ++ [wCell]))) ∧
    extractRow (wCell :: (wMid ++ [wCell])) =
      extractRow (Cell.mk ["other"] :: (wMid ++ [])) :=
  surplus_cells_ignored wCell ⟨["other"]⟩ wMid [wCell] [] (by decide)

/-- C10: the empty filter set is not an error — the URL keeps the fixed
template with an empty filter segment between "&f=" and "&ft=4". -/
theorem build_url_empty_filters (output order : String) :
    filterStr [] = "" ∧
    build_url [] output order =
      BASE_URL ++ "?v=" ++ output ++ "&f=&ft=4&o=" ++ order := by
  refine ⟨rfl, ?_⟩
  apply strExt
  simp only [build_url, strData_append,
    show (filterStr []).data = [] from rfl,
    List.append_nil, List.append_assoc]
  simp

end Finviz
